import Mathlib

/-!
Shallow embedding of `src/lib/plastic.js` (plastic.js): a runtime
type-composition library with four operations — `defineType`,
`becomeType`, `isType`, `renounceType`.

Modelling choices, all taken from the source:
* A JS object's own-property table is an association list `Obj` with
  unique-key update-in-place assignment (`setProp`), first-match lookup
  (`getProp`), and delete (`delProp`).  `for..in` enumerates entries in
  insertion order, which is the list order.
* JS values relevant to the code: `undefined`, booleans, numbers,
  strings, and functions.  A function value carries its `.name` string
  and a reference id; `===` on functions is reference equality, which
  value equality on `Value.fn` captures when distinct functions get
  distinct ids.  Reference ids 0 and 1 are reserved for the built-in
  `Object` and `Array` constructors.
* Property lookup on an object falls back to the prototype chain: the
  `"constructor"` key resolves to the inherited
  `Object.prototype.constructor === Object` (for arrays,
  `Array.prototype.constructor === Array`), and the standardized (ES5)
  callable members of `Object.prototype` — and additionally of
  `Array.prototype` for arrays — resolve to the built-in functions of
  those names, so `typeof obj[k]` is `"function"` for them even when no
  own property `k` exists.
* The identity handle (a constructor function) is a `Ctor` carrying its
  `.name`, its reference id, its `_typeMethods` and `_typeProps` fields
  (`none` models "absent or not a plain object", the exact condition
  `!isPlainObject(...)` tests), and its remaining fields.
* Exceptions with in-place mutation: `defineType` returns the mutated
  `Ctor` together with a `Bool` that is `true` when the JS code throws,
  so the state at throw time is observable, exactly as in JS.
-/

namespace Plastic

/-- A JS value, as far as plastic.js inspects values. -/
inductive Value where
  | undef : Value
  | vbool : Bool → Value
  | num : Int → Value
  | str : String → Value
  | fn : String → Nat → Value
deriving DecidableEq, Repr

/-- The own-property table of a JS object: insertion-ordered bindings. -/
abbrev Obj := List (String × Value)

/-- Property read: first binding wins; absent properties read as `undefined`. -/
def getProp : Obj → String → Value
  | [], _ => .undef
  | p :: rest, k => if p.1 = k then p.2 else getProp rest k

/-- Own-property test (JS `hasOwnProperty`). -/
def hasProp : Obj → String → Bool
  | [], _ => false
  | p :: rest, k => if p.1 = k then true else hasProp rest k

/-- JS property assignment: update in place if present, else append. -/
def setProp : Obj → String → Value → Obj
  | [], k, v => [(k, v)]
  | p :: rest, k, v => if p.1 = k then (k, v) :: rest else p :: setProp rest k v

/-- JS `delete obj[k]`. -/
def delProp : Obj → String → Obj
  | [], _ => []
  | p :: rest, k => if p.1 = k then delProp rest k else p :: delProp rest k

/-- Fold of JS assignments, in `for..in` order. -/
def setFields (o : Obj) (ms : Obj) : Obj :=
  ms.foldl (fun acc p => setProp acc p.1 p.2) o

/-- Fold of JS deletes, one per key of `ms`, in `for..in` order. -/
def delFields (o : Obj) (ms : Obj) : Obj :=
  ms.foldl (fun acc p => delProp acc p.1) o

/-- The value the last binding of `k` in `ms` carries, if any. -/
def lookLast : Obj → String → Option Value
  | [], _ => none
  | p :: rest, k =>
    match lookLast rest k with
    | some w => some w
    | none => if p.1 = k then some p.2 else none

/-- `typeof v === "function"`. -/
def isFunction : Value → Bool
  | .fn _ _ => true
  | _ => false

/-- The `.name` of a function value (only read on functions). -/
def fnName : Value → String
  | .fn n _ => n
  | _ => ""

/-- JS truthiness of the values in the model. -/
def truthy : Value → Bool
  | .undef => false
  | .vbool b => b
  | .num n => n ≠ 0
  | .str s => s ≠ ""
  | .fn _ _ => true

/-- The built-in `Object` constructor as a value (reserved reference 0). -/
def objectCtorVal : Value := .fn "Object" 0

/-- The built-in `Array` constructor as a value (reserved reference 1). -/
def arrayCtorVal : Value := .fn "Array" 1

/-- A target object: its own-property table plus its structural category
(`isArr` is what `Object.prototype.toString.call(arg) === "[object Array]"`
reports). -/
structure JSObj where
  fields : Obj
  isArr : Bool
deriving DecidableEq, Repr

/-- The callable own members of `Object.prototype` other than
`constructor`, as standardized in ES5 (with the legacy accessor-definition
functions present in browsers and Node), each inherited by every object. -/
def objectProtoCallables : List String :=
  ["toString", "toLocaleString", "valueOf", "hasOwnProperty", "isPrototypeOf",
   "propertyIsEnumerable", "__defineGetter__", "__defineSetter__",
   "__lookupGetter__", "__lookupSetter__"]

/-- The callable own members of `Array.prototype` other than
`constructor`, as standardized in ES5, inherited by every array. -/
def arrayProtoCallables : List String :=
  ["concat", "every", "filter", "forEach", "indexOf", "join", "lastIndexOf",
   "map", "pop", "push", "reduce", "reduceRight", "reverse", "shift", "slice",
   "some", "sort", "splice", "toString", "toLocaleString", "unshift"]

/-- The inherited callable member names (besides `constructor`) seen by a
plain object, respectively by an array (which inherits both prototypes). -/
def protoCallables (isArr : Bool) : List String :=
  if isArr then arrayProtoCallables ++ objectProtoCallables
  else objectProtoCallables

/-- Reserved reference id for the built-in prototype member functions
(distinct from the ids of `Object`, `Array`, and all user functions). -/
def builtinRef : Nat := 1000

/-- Property lookup `obj[k]`: the own property when present, else the
prototype chain — `constructor` resolves to `Object` (for arrays,
`Array`), and the ES5 callable prototype members resolve to the built-in
functions of those names; everything else reads as `undefined`. -/
def getField (o : JSObj) (k : String) : Value :=
  if hasProp o.fields k then getProp o.fields k
  else if k = "constructor" then (if o.isArr then arrayCtorVal else objectCtorVal)
  else if (protoCallables o.isArr).contains k then Value.fn k builtinRef
  else Value.undef

/-- `obj.constructor`, own property or the inherited one. -/
def jsConstructor (o : JSObj) : Value := getField o "constructor"

/-- A constructor function used as a type-descriptor handle: its `.name`,
its reference id, its `_typeMethods` and `_typeProps` fields (`none` when
`!isPlainObject(...)` holds, i.e. absent or not a plain object), and its
remaining own fields. -/
structure Ctor where
  name : String
  ref : Nat
  typeMethods : Option Obj
  typeProps : Option Obj
  otherFields : Obj
deriving DecidableEq, Repr

/-- The constructor seen as a JS value (for `===` comparisons and for
being stored on instances). -/
def ctorVal (c : Ctor) : Value := .fn c.name c.ref

/-- The capability map `for..in` iterates over: `for..in` on `undefined`
performs zero iterations, so an absent map behaves as empty. -/
def methodsOf (c : Ctor) : Obj := c.typeMethods.getD []

/-- Likewise for the tracked-property map. -/
def propsOf (c : Ctor) : Obj := c.typeProps.getD []

/-- The check `typeof func !== 'function' || !func.name` from
`defineType`, negated: `true` iff the element is acceptable. -/
def validNamedFn (v : Value) : Bool :=
  isFunction v && (fnName v ≠ "")

/-- The `named_funcs` loop of `defineType`: registers each element under
its own name; stops with `true` (the JS `throw`) at the first element
failing `validNamedFn`, keeping the registrations already made. -/
def registerNamed : Obj → List Value → Obj × Bool
  | m, [] => (m, false)
  | m, f :: rest =>
    if validNamedFn f then registerNamed (setProp m (fnName f) f) rest
    else (m, true)

/-- `plastic.defineType(constructor, named_funcs, prop_names, renamed_funcs)`.
Returns the mutated constructor and `true` when the JS code throws
(`Error: All provided elements in named_functions must be functions with
a name`); the mutations made before the throw are kept, as in JS. -/
def defineType (c : Ctor) (named : List Value) (propNames : List String)
    (renamed : Obj) : Ctor × Bool :=
  let m0 := methodsOf c
  let p0 := propsOf c
  match registerNamed m0 named with
  | (m1, true) => ({ c with typeMethods := some m1, typeProps := some p0 }, true)
  | (m1, false) =>
    let m2 := setFields m1 renamed
    let p1 := propNames.foldl (fun p k => setProp p k (.vbool true)) p0
    ({ c with typeMethods := some m2, typeProps := some p1 }, false)

/-- `plastic.becomeType(base, constructor)`: copies every registered
capability onto `base`, then executes the source line
`base.constuctor = constructor;` — note the misspelled property name
`constuctor`, written here exactly as in the source. -/
def becomeType (b : JSObj) (c : Ctor) : JSObj :=
  { b with fields := setProp (setFields b.fields (methodsOf c)) "constuctor" (ctorVal c) }

/-- `plastic.isType(obj, constructor)`: nominal fast path on
`obj.constructor === constructor`, then the structural check that every
registered capability name is a callable member of `obj`. -/
def isType (o : JSObj) (c : Ctor) : Bool :=
  if jsConstructor o = ctorVal c then true
  else (methodsOf c).all (fun p => isFunction (getField o p.1))

/-- `plastic.renounceType(obj, constructor, new_constructor)`: deletes
every registered capability name and tracked property name, then runs
`obj.constructor = new_constructor ? new_constructor : (isArray(obj) ? Array : Object)`.
An omitted `new_constructor` is `undefined`, i.e. `Value.undef`. -/
def renounceType (o : JSObj) (c : Ctor) (newCtor : Value) : JSObj :=
  let f1 := delFields o.fields (methodsOf c)
  let f2 := delFields f1 (propsOf c)
  let nc := if truthy newCtor then newCtor
            else if o.isArr then arrayCtorVal else objectCtorVal
  { o with fields := setProp f2 "constructor" nc }

/-- The baseline constructor `renounceType` infers when no truthy
replacement is supplied: `isArray(obj) ? Array : Object`. -/
def baselineCtorVal (o : JSObj) : Value :=
  if o.isArr then arrayCtorVal else objectCtorVal

/-! ### Concrete sample values used by counterexamples and witnesses -/

/-- A sample named function value (a capability implementation). -/
def speakFn : Value := .fn "speak" 3

/-- A registered descriptor: identity `Animal` (reference 2) with
capability `speak` and tracked property `name`. -/
def animalCtor : Ctor := ⟨"Animal", 2, some [("speak", speakFn)], some [("name", .vbool true)], []⟩

/-- A plain record `{name: "Rex"}`. -/
def rexObj : JSObj := ⟨[("name", .str "Rex")], false⟩

/-- An empty plain record `{}`. -/
def emptyObj : JSObj := ⟨[], false⟩

/-- A descriptor whose sole registered capability is literally named
`constructor` (registrable through `renamed_funcs`). -/
def ctorCapCtor : Ctor := ⟨"T", 5, some [("constructor", .fn "f" 7)], some [], []⟩

/-- A descriptor whose sole registered capability is named `toString` — a
named callable, not named `constructor` — colliding with an inherited
`Object.prototype` member. -/
def toStrCtor : Ctor := ⟨"S", 8, some [("toString", .fn "toString" 11)], some [], []⟩

/-- A descriptor with initialized but empty capability and property maps. -/
def freshCtor : Ctor := ⟨"T", 6, some [], some [], []⟩

/-- A never-registered identity: both descriptor fields absent. -/
def neverCtor : Ctor := ⟨"N", 9, none, none, []⟩

/-- A plain record with a pre-existing field named `constuctor`. -/
def weirdObj : JSObj := ⟨[("constuctor", .num 5)], false⟩

/-! ### Basic lemmas about the object-table operations -/

theorem getProp_setProp_self (o : Obj) (k : String) (v : Value) :
    getProp (setProp o k v) k = v := by
  induction o with
  | nil => simp [setProp, getProp]
  | cons p rest ih =>
    by_cases h : p.1 = k
    · simp [setProp, h, getProp]
    · simp [setProp, h, getProp, ih]

theorem getProp_setProp_ne (o : Obj) (k q : String) (v : Value) (h : k ≠ q) :
    getProp (setProp o k v) q = getProp o q := by
  induction o with
  | nil => simp [setProp, getProp, h]
  | cons p rest ih =>
    by_cases hp : p.1 = k
    · simp [setProp, hp, getProp, h, hp ▸ h]
    · simp [setProp, hp, getProp, ih]

theorem hasProp_setProp_self (o : Obj) (k : String) (v : Value) :
    hasProp (setProp o k v) k = true := by
  induction o with
  | nil => simp [setProp, hasProp]
  | cons p rest ih =>
    by_cases h : p.1 = k
    · simp [setProp, h, hasProp]
    · simp [setProp, h, hasProp, ih]

theorem hasProp_setProp_ne (o : Obj) (k q : String) (v : Value) (h : k ≠ q) :
    hasProp (setProp o k v) q = hasProp o q := by
  induction o with
  | nil => simp [setProp, hasProp, h]
  | cons p rest ih =>
    by_cases hp : p.1 = k
    · simp [setProp, hp, hasProp, h, hp ▸ h]
    · simp [setProp, hp, hasProp, ih]

theorem getProp_delProp (o : Obj) (k q : String) :
    getProp (delProp o k) q = if k = q then Value.undef else getProp o q := by
  induction o with
  | nil => simp [delProp, getProp]
  | cons p rest ih =>
    by_cases hp : p.1 = k
    · rw [show delProp (p :: rest) k = delProp rest k by simp [delProp, hp], ih]
      by_cases hq : k = q
      · simp [hq]
      · have hpq : ¬ p.1 = q := by rw [hp]; exact hq
        simp [hq, getProp, hpq]
    · rw [show delProp (p :: rest) k = p :: delProp rest k by simp [delProp, hp]]
      by_cases hpq : p.1 = q
      · have hkq : ¬ k = q := fun e => hp (hpq.trans e.symm)
        simp [getProp, hpq, hkq]
      · simp [getProp, hpq, ih]

theorem hasProp_delProp (o : Obj) (k q : String) :
    hasProp (delProp o k) q = if k = q then false else hasProp o q := by
  induction o with
  | nil => simp [delProp, hasProp]
  | cons p rest ih =>
    by_cases hp : p.1 = k
    · rw [show delProp (p :: rest) k = delProp rest k by simp [delProp, hp], ih]
      by_cases hq : k = q
      · simp [hq]
      · have hpq : ¬ p.1 = q := by rw [hp]; exact hq
        simp [hq, hasProp, hpq]
    · rw [show delProp (p :: rest) k = p :: delProp rest k by simp [delProp, hp]]
      by_cases hpq : p.1 = q
      · have hkq : ¬ k = q := fun e => hp (hpq.trans e.symm)
        simp [hasProp, hpq, hkq]
      · simp [hasProp, hpq, ih]

theorem setFields_nil (o : Obj) : setFields o [] = o := rfl

theorem setFields_cons (o : Obj) (p : String × Value) (ms : Obj) :
    setFields o (p :: ms) = setFields (setProp o p.1 p.2) ms := rfl

theorem delFields_nil (o : Obj) : delFields o [] = o := rfl

theorem delFields_cons (o : Obj) (p : String × Value) (ms : Obj) :
    delFields o (p :: ms) = delFields (delProp o p.1) ms := rfl

theorem getProp_setFields (ms : Obj) (o : Obj) (q : String) :
    getProp (setFields o ms) q = (lookLast ms q).getD (getProp o q) := by
  induction ms generalizing o with
  | nil => simp [setFields_nil, lookLast]
  | cons p rest ih =>
    rw [setFields_cons, ih]
    cases h : lookLast rest q with
    | some w => simp [lookLast, h]
    | none =>
      by_cases hpq : p.1 = q
      · simp [lookLast, h, hpq, getProp_setProp_self]
      · simp [lookLast, h, hpq, getProp_setProp_ne _ _ _ _ hpq]

theorem hasProp_setFields (ms : Obj) (o : Obj) (q : String) :
    hasProp (setFields o ms) q = (hasProp ms q || hasProp o q) := by
  induction ms generalizing o with
  | nil => simp [setFields_nil, hasProp]
  | cons p rest ih =>
    rw [setFields_cons, ih]
    by_cases hpq : p.1 = q
    · simp [hasProp, hpq, hasProp_setProp_self]
    · simp [hasProp, hpq, hasProp_setProp_ne _ _ _ _ hpq]

theorem hasProp_delFields (ms : Obj) (o : Obj) (q : String) :
    hasProp (delFields o ms) q = (!hasProp ms q && hasProp o q) := by
  induction ms generalizing o with
  | nil => simp [delFields_nil, hasProp]
  | cons p rest ih =>
    rw [delFields_cons, ih, hasProp_delProp]
    by_cases hpq : p.1 = q
    · simp [hasProp, hpq]
    · simp [hasProp, hpq]

theorem getProp_delFields (ms : Obj) (o : Obj) (q : String) :
    getProp (delFields o ms) q = if hasProp ms q then Value.undef else getProp o q := by
  induction ms generalizing o with
  | nil => simp [delFields_nil, hasProp]
  | cons p rest ih =>
    rw [delFields_cons, ih, getProp_delProp]
    by_cases hpq : p.1 = q
    · simp [hasProp, hpq]
    · simp [hasProp, hpq]

theorem lookLast_eq_none_iff (ms : Obj) (q : String) :
    lookLast ms q = none ↔ hasProp ms q = false := by
  induction ms with
  | nil => simp [lookLast, hasProp]
  | cons p rest ih =>
    by_cases hpq : p.1 = q
    · cases h : lookLast rest q with
      | some w => simp [lookLast, h, hpq, hasProp]
      | none => simp [lookLast, h, hpq, hasProp]
    · cases h : lookLast rest q with
      | some w =>
        have htrue : hasProp rest q = true := by
          cases ht : hasProp rest q
          · rw [ih.mpr ht] at h; exact Option.noConfusion h
          · rfl
        simp [lookLast, h, hpq, hasProp, htrue]
      | none => simp [lookLast, h, hpq, hasProp, ih.mp h]

theorem lookLast_mem (ms : Obj) (q : String) (w : Value)
    (h : lookLast ms q = some w) : (q, w) ∈ ms := by
  induction ms with
  | nil => simp [lookLast] at h
  | cons p rest ih =>
    simp only [lookLast] at h
    cases hr : lookLast rest q with
    | some u =>
      rw [hr] at h
      simp at h
      exact List.mem_cons_of_mem _ (ih (by rw [hr, h]))
    | none =>
      rw [hr] at h
      by_cases hpq : p.1 = q
      · simp [hpq] at h
        refine List.mem_cons.mpr (Or.inl ?_)
        cases p with
        | mk a b =>
          simp at hpq h ⊢
          exact ⟨hpq.symm, h.symm⟩
      · simp [hpq] at h

theorem hasProp_of_mem (ms : Obj) (p : String × Value) (h : p ∈ ms) :
    hasProp ms p.1 = true := by
  induction ms with
  | nil => simp at h
  | cons r rest ih =>
    rcases List.mem_cons.mp h with h1 | h2
    · simp [hasProp, h1]
    · by_cases hr : r.1 = p.1
      · simp [hasProp, hr]
      · simp [hasProp, hr, ih h2]

/-! ### Unfolding lemmas for the four operations -/

theorem becomeType_fields (b : JSObj) (c : Ctor) :
    (becomeType b c).fields =
      setProp (setFields b.fields (methodsOf c)) "constuctor" (ctorVal c) := rfl

theorem becomeType_isArr (b : JSObj) (c : Ctor) :
    (becomeType b c).isArr = b.isArr := rfl

theorem renounceType_fields (o : JSObj) (c : Ctor) (nv : Value) :
    (renounceType o c nv).fields =
      setProp (delFields (delFields o.fields (methodsOf c)) (propsOf c)) "constructor"
        (if truthy nv then nv else baselineCtorVal o) := by
  cases h : truthy nv <;> simp [renounceType, baselineCtorVal, h]

theorem renounceType_isArr (o : JSObj) (c : Ctor) (nv : Value) :
    (renounceType o c nv).isArr = o.isArr := rfl

theorem getProp_becomeType (b : JSObj) (c : Ctor) (k : String) :
    getProp (becomeType b c).fields k =
      if k = "constuctor" then ctorVal c
      else (lookLast (methodsOf c) k).getD (getProp b.fields k) := by
  rw [becomeType_fields]
  by_cases hk : k = "constuctor"
  · subst hk
    rw [getProp_setProp_self]
    simp
  · rw [getProp_setProp_ne _ _ _ _ (Ne.symm hk), getProp_setFields]
    simp [hk]

theorem hasProp_becomeType (b : JSObj) (c : Ctor) (k : String) :
    hasProp (becomeType b c).fields k =
      if k = "constuctor" then true
      else (hasProp (methodsOf c) k || hasProp b.fields k) := by
  rw [becomeType_fields]
  by_cases hk : k = "constuctor"
  · subst hk
    rw [hasProp_setProp_self]
    simp
  · rw [hasProp_setProp_ne _ _ _ _ (Ne.symm hk), hasProp_setFields]
    simp [hk]

theorem registerNamed_all_valid (named : List Value) (m : Obj)
    (h : ∀ g ∈ named, validNamedFn g = true) :
    registerNamed m named =
      (named.foldl (fun acc g => setProp acc (fnName g) g) m, false) := by
  induction named generalizing m with
  | nil => simp [registerNamed]
  | cons g gs ih =>
    have hg := h g (List.mem_cons_self g gs)
    simp [registerNamed, hg, ih _ (fun x hx => h x (List.mem_cons_of_mem _ hx))]

theorem registerNamed_append_bad (good : List Value) (bad : Value) (rest : List Value)
    (m : Obj) (hgood : ∀ g ∈ good, validNamedFn g = true)
    (hbad : validNamedFn bad = false) :
    registerNamed m (good ++ bad :: rest) =
      (good.foldl (fun acc g => setProp acc (fnName g) g) m, true) := by
  induction good generalizing m with
  | nil => simp [registerNamed, hbad]
  | cons g gs ih =>
    have hg : validNamedFn g = true := hgood g (List.mem_cons_self g gs)
    simp only [List.cons_append, registerNamed, hg, if_true, List.foldl_cons]
    exact ih _ (fun x hx => hgood x (List.mem_cons_of_mem _ hx))

/-! ### Claim theorems -/

/-- C1: the claim says that after `becomeType(target, identity)` every
registered capability is a field on the target bound to the registered
callable (which holds), and that the target's type-identity field — the
object's `constructor` — equals the identity.  The source line reads
`base.constuctor = constructor;`: the property name is misspelled, while
the function's own doc comment says it "sets base's 'constructor' to the
one provided".  At the concrete input below the capability is attached
and a field literally named `constuctor` holds the identity, but
`obj.constructor` remains the inherited baseline `Object` and does not
equal the identity: the code contradicts its own documentation. -/
theorem C1_constructor_typo :
    getField (becomeType rexObj animalCtor) "speak" = speakFn ∧
    getProp (becomeType rexObj animalCtor).fields "constuctor" = ctorVal animalCtor ∧
    jsConstructor (becomeType rexObj animalCtor) = objectCtorVal ∧
    jsConstructor (becomeType rexObj animalCtor) ≠ ctorVal animalCtor := by
  decide

/-- C2 counterexample: the claim says `defineType` raises before any
registry mutation, leaving the capability map exactly as it was.  With an
initialized empty capability map and `named_funcs = [speak, 42]`, the
valid first element is registered before the invalid second one throws:
the call errors, yet the capability map has changed. -/
theorem C2_counterexample :
    (defineType freshCtor [speakFn, .num 42] [] []).2 = true ∧
    (defineType freshCtor [speakFn, .num 42] [] []).1.typeMethods ≠ freshCtor.typeMethods := by
  decide

/-- C2 as amended: validation happens inside the single pass over
`named_funcs`, so when an invalid element is hit, the error aborts at
that element: every earlier (valid) element is already registered and the
two registry maps are initialized if they were absent, while the
offending and later elements, `renamed_funcs`, and `prop_names` are not
processed. -/
theorem C2_abort_keeps_prefix (c : Ctor) (good : List Value) (bad : Value)
    (rest : List Value) (props : List String) (renamed : Obj)
    (hgood : ∀ g ∈ good, validNamedFn g = true)
    (hbad : validNamedFn bad = false) :
    defineType c (good ++ bad :: rest) props renamed =
      ({ c with
          typeMethods := some (good.foldl (fun m g => setProp m (fnName g) g) (methodsOf c)),
          typeProps := some (propsOf c) }, true) := by
  simp [defineType, registerNamed_append_bad good bad rest (methodsOf c) hgood hbad]

/-- Witness for C2's amended theorem at a concrete input. -/
theorem C2_abort_keeps_prefix_witness :
    defineType freshCtor ([speakFn] ++ Value.num 42 :: []) [] [] =
      ({ freshCtor with typeMethods := some [("speak", speakFn)], typeProps := some [] }, true) :=
  C2_abort_keeps_prefix freshCtor [speakFn] (.num 42) [] [] [] (by decide) (by decide)

/-- C3 counterexample: the claim says a supplied `fallbackIdentity` is
always stored.  The source decides with JS truthiness
(`new_constructor ? new_constructor : ...`), so the supplied falsy value
`false` is ignored and the inferred baseline `Object` is stored instead. -/
theorem C3_counterexample :
    getProp (renounceType rexObj animalCtor (.vbool false)).fields "constructor" = objectCtorVal ∧
    objectCtorVal ≠ Value.vbool false := by
  decide

/-- C3 as amended: `renounceType` stores the supplied `fallbackIdentity`
exactly when that value is truthy; when it is omitted (i.e. `undefined`)
or otherwise falsy, the stored identity is the sequence baseline `Array`
for array objects and the plain-record baseline `Object` otherwise. -/
theorem C3_fallback_truthiness (o : JSObj) (c : Ctor) (fb : Value) :
    (truthy fb = true → getProp (renounceType o c fb).fields "constructor" = fb) ∧
    (truthy fb = false →
      getProp (renounceType o c fb).fields "constructor" = baselineCtorVal o) := by
  constructor
  · intro h
    rw [renounceType_fields, h, if_pos rfl, getProp_setProp_self]
  · intro h
    rw [renounceType_fields, h]
    simp only [Bool.false_eq_true, if_false, getProp_setProp_self]

/-- Witness for C3's amended theorem: a truthy (function) fallback is
stored; an omitted fallback resolves to the `Object` baseline. -/
theorem C3_fallback_truthiness_witness :
    getProp (renounceType rexObj neverCtor (ctorVal animalCtor)).fields "constructor" = ctorVal animalCtor ∧
    getProp (renounceType rexObj neverCtor Value.undef).fields "constructor" = baselineCtorVal rexObj :=
  ⟨(C3_fallback_truthiness rexObj neverCtor (ctorVal animalCtor)).1 (by decide),
   (C3_fallback_truthiness rexObj neverCtor Value.undef).2 (by decide)⟩

/-- C4 counterexample: the claim says `becomeType` never alters a field
whose name is not among the descriptor's capability names.  A target with
a pre-existing field named `constuctor` — not a capability name of the
descriptor — has that field overwritten with the identity by the source
line `base.constuctor = constructor;`. -/
theorem C4_counterexample :
    hasProp (methodsOf animalCtor) "constuctor" = false ∧
    getProp weirdObj.fields "constuctor" = Value.num 5 ∧
    getProp (becomeType weirdObj animalCtor).fields "constuctor" = ctorVal animalCtor ∧
    ctorVal animalCtor ≠ Value.num 5 := by
  decide

/-- C4 as amended: `becomeType(T, D)` never removes or alters a field of
`T` whose name is neither among `D`'s capability names nor the
type-identity field the code writes (the literally-spelled `constuctor`);
all such fields keep their prior values, and the structural category of
`T` is unchanged. -/
theorem C4_nondestructive (b : JSObj) (c : Ctor) (k : String)
    (hk : hasProp (methodsOf c) k = false) (hc : k ≠ "constuctor") :
    getProp (becomeType b c).fields k = getProp b.fields k ∧
    hasProp (becomeType b c).fields k = hasProp b.fields k ∧
    (becomeType b c).isArr = b.isArr := by
  refine ⟨?_, ?_, rfl⟩
  · rw [getProp_becomeType, if_neg hc, (lookLast_eq_none_iff (methodsOf c) k).mpr hk]
    rfl
  · rw [hasProp_becomeType, if_neg hc, hk]
    rfl

/-- Witness for C4's amended theorem: the unrelated field `name` of
`{name: "Rex"}` survives extension with its value intact. -/
theorem C4_nondestructive_witness :
    getProp (becomeType rexObj animalCtor).fields "name" = Value.str "Rex" := by
  rw [(C4_nondestructive rexObj animalCtor "name" (by decide) (by decide)).1]
  decide

/-- C6: for every object and every identity whose descriptor has zero
registered capabilities — including a never-registered identity, whose
`_typeMethods` field is absent and over which `for..in` performs zero
iterations — `isType` returns `true`: the structural check succeeds
vacuously and no "descriptor not found" error exists. -/
theorem C6_empty_descriptor (o : JSObj) (c : Ctor)
    (h : c.typeMethods = none ∨ c.typeMethods = some []) :
    isType o c = true := by
  rcases h with h | h <;>
  · unfold isType
    split
    · rfl
    · simp [methodsOf, h]

/-- Witness for C6 at a never-registered identity and at an initialized
empty descriptor. -/
theorem C6_empty_descriptor_witness :
    isType rexObj neverCtor = true ∧ isType rexObj freshCtor = true :=
  ⟨C6_empty_descriptor rexObj neverCtor (Or.inl rfl),
   C6_empty_descriptor rexObj freshCtor (Or.inr rfl)⟩

/-- C7: idempotent extension — applying `becomeType` twice with the same
descriptor yields a field set (names and values, plus the structural
category) identical to a single application: every property reads the
same and is present in one result exactly when present in the other. -/
theorem C7_idempotent (b : JSObj) (c : Ctor) (k : String) :
    getProp (becomeType (becomeType b c) c).fields k = getProp (becomeType b c).fields k ∧
    hasProp (becomeType (becomeType b c) c).fields k = hasProp (becomeType b c).fields k ∧
    (becomeType (becomeType b c) c).isArr = (becomeType b c).isArr := by
  refine ⟨?_, ?_, rfl⟩
  · rw [getProp_becomeType, getProp_becomeType]
    by_cases hk : k = "constuctor"
    · simp [hk]
    · simp only [hk, if_false]
      cases h : lookLast (methodsOf c) k <;> simp [h]
  · rw [hasProp_becomeType, hasProp_becomeType]
    by_cases hk : k = "constuctor"
    · simp [hk]
    · simp only [hk, if_false]
      cases h : hasProp (methodsOf c) k <;> simp [h]

/-- C5 counterexample: the claim says that for any descriptor with at
least one registered capability and a collision-free target,
`isType(renounceType(becomeType(T, D), D), D)` is false.  Two concrete
refutations on the empty target.  First, a descriptor whose sole
capability is literally named `constructor` (its value is even
callable): retraction deletes the capability field but then assigns
`obj.constructor = Object`, which the structural check finds to be a
callable member named `constructor`.  Second, a descriptor whose sole
capability is named `toString` (a named callable, not `constructor`, its
identity distinct from the baselines): retraction deletes the own field,
but `typeof obj["toString"]` then finds the inherited
`Object.prototype.toString`, which is callable.  In both cases `isType`
returns `true`, not `false`. -/
theorem C5_counterexample :
    methodsOf ctorCapCtor ≠ [] ∧
    (∀ p ∈ methodsOf ctorCapCtor, isFunction p.2 = true) ∧
    emptyObj.fields = [] ∧
    isType (becomeType emptyObj ctorCapCtor) ctorCapCtor = true ∧
    isType (renounceType (becomeType emptyObj ctorCapCtor) ctorCapCtor Value.undef) ctorCapCtor = true ∧
    methodsOf toStrCtor ≠ [] ∧
    (∀ p ∈ methodsOf toStrCtor, isFunction p.2 = true ∧ p.1 ≠ "constructor") ∧
    ctorVal toStrCtor ≠ objectCtorVal ∧
    ctorVal toStrCtor ≠ arrayCtorVal ∧
    isType (becomeType emptyObj toStrCtor) toStrCtor = true ∧
    isType (renounceType (becomeType emptyObj toStrCtor) toStrCtor Value.undef) toStrCtor = true := by
  decide

/-- C5 as amended: for a descriptor `D` with at least one registered
capability, all of whose registered capability values are callable, none
of whose capability names is `constructor` or the name of an inherited
callable member of the target's prototype chain (the ES5
`Object.prototype` callables, plus the `Array.prototype` callables when
the target is an array), whose identity is neither the `Array` nor the
`Object` baseline identity, and a target `T` with no pre-existing fields
colliding with `D`'s capability or tracked-property names:
`isType(becomeType(T, D), D)` is true and
`isType(renounceType(becomeType(T, D), D), D)` is false. -/
theorem C5_extension_retraction (b : JSObj) (c : Ctor) (ms : Obj)
    (hms : c.typeMethods = some ms) (hne : ms ≠ [])
    (hfun : ∀ p ∈ ms, isFunction p.2 = true)
    (hcon : ∀ p ∈ ms, p.1 ≠ "constructor")
    (hproto : ∀ p ∈ ms, (protoCallables b.isArr).contains p.1 = false)
    (hobj : ctorVal c ≠ objectCtorVal) (harr : ctorVal c ≠ arrayCtorVal)
    (_hcoll : ∀ p ∈ ms, hasProp b.fields p.1 = false)
    (_hcollp : ∀ p ∈ propsOf c, hasProp b.fields p.1 = false) :
    isType (becomeType b c) c = true ∧
    isType (renounceType (becomeType b c) c Value.undef) c = false := by
  have hmOf : methodsOf c = ms := by simp [methodsOf, hms]
  constructor
  · unfold isType
    split
    · rfl
    · rw [hmOf, List.all_eq_true]
      intro p hp
      have hhas : hasProp (becomeType b c).fields p.1 = true := by
        rw [hasProp_becomeType]
        by_cases hk : p.1 = "constuctor"
        · simp [hk]
        · simp [hk, hmOf, hasProp_of_mem ms p hp]
      simp only [getField, hhas, if_true]
      rw [getProp_becomeType]
      by_cases hk : p.1 = "constuctor"
      · simp [hk, ctorVal, isFunction]
      · simp only [hk, if_false, hmOf]
        have hmem := hasProp_of_mem ms p hp
        cases hl : lookLast ms p.1 with
        | none =>
          rw [lookLast_eq_none_iff, hmem] at hl
          exact Bool.noConfusion hl
        | some w =>
          have hw := lookLast_mem ms p.1 w hl
          simpa using hfun (p.1, w) hw
  · obtain ⟨p0, ps, rfl⟩ := List.exists_cons_of_ne_nil hne
    have hnp : p0.1 ≠ "constructor" := hcon p0 (List.mem_cons_self p0 ps)
    have hcons : jsConstructor (renounceType (becomeType b c) c Value.undef) ≠ ctorVal c := by
      have hH : hasProp (renounceType (becomeType b c) c Value.undef).fields "constructor" = true := by
        rw [renounceType_fields]
        exact hasProp_setProp_self _ _ _
      have hR : getProp (renounceType (becomeType b c) c Value.undef).fields "constructor" =
          baselineCtorVal (becomeType b c) := by
        rw [renounceType_fields, getProp_setProp_self]
        rfl
      simp only [jsConstructor, getField, hH, if_true, hR, baselineCtorVal]
      cases hA : (becomeType b c).isArr
      · simp only [Bool.false_eq_true, if_false]
        exact Ne.symm hobj
      · simp only [if_true]
        exact Ne.symm harr
    unfold isType
    split
    · rename_i h
      exact absurd h hcons
    · have hhas : hasProp (renounceType (becomeType b c) c Value.undef).fields p0.1 = false := by
        rw [renounceType_fields, hasProp_setProp_ne _ _ _ _ (Ne.symm hnp),
          hasProp_delFields, hasProp_delFields, hmOf]
        simp [hasProp_of_mem (p0 :: ps) p0 (List.mem_cons_self p0 ps)]
      have hfield : getField (renounceType (becomeType b c) c Value.undef) p0.1 = Value.undef := by
        have hpc : p0.1 ∉ protoCallables b.isArr := by
          simpa using hproto p0 (List.mem_cons_self p0 ps)
        simp [getField, hhas, hnp, renounceType_isArr, becomeType_isArr, hpc]
      rw [hmOf]
      simp [hfield, isFunction]

/-- Witness for C5's amended theorem: the `Animal` descriptor applied to
the empty plain record. -/
theorem C5_extension_retraction_witness :
    isType (becomeType emptyObj animalCtor) animalCtor = true ∧
    isType (renounceType (becomeType emptyObj animalCtor) animalCtor Value.undef) animalCtor = false :=
  C5_extension_retraction emptyObj animalCtor [("speak", speakFn)] rfl (by decide)
    (by decide) (by decide) (by decide) (by decide) (by decide) (by decide) (by decide)

/-- C8: `defineType` performs no validation on `renamed_funcs`: whenever
every element of `named_funcs` passes the callable-with-name check (in
particular when `named_funcs` is empty), the call completes without
raising regardless of what values `renamed_funcs` holds, and the value
under each key of `renamed_funcs` — callable or not — is registered
verbatim as the capability under that key. -/
theorem C8_renamed_unchecked (c : Ctor) (named : List Value) (props : List String)
    (renamed : Obj) (k : String) (v : Value)
    (hnamed : ∀ g ∈ named, validNamedFn g = true)
    (hk : lookLast renamed k = some v) :
    (defineType c named props renamed).2 = false ∧
    getProp (methodsOf (defineType c named props renamed).1) k = v := by
  have hreg := registerNamed_all_valid named (c.typeMethods.getD []) hnamed
  constructor
  · simp [defineType, methodsOf, hreg]
  · simp [defineType, methodsOf, hreg, getProp_setFields, hk]

/-- Witness for C8: the non-callable value `42` under key `x` in
`renamed_funcs` is accepted and registered verbatim. -/
theorem C8_renamed_unchecked_witness :
    (defineType freshCtor [] [] [("x", Value.num 42)]).2 = false ∧
    getProp (methodsOf (defineType freshCtor [] [] [("x", Value.num 42)]).1) "x" = Value.num 42 :=
  C8_renamed_unchecked freshCtor [] [] [("x", Value.num 42)] "x" (Value.num 42)
    (by simp) (by decide)

/-- C9: descriptor state lives on the identity handle itself.
`defineType` changes only the identity's `_typeMethods` and `_typeProps`
fields: its name, reference, and every other field are preserved (and, the
embedding passing state explicitly, it touches no other object).  The
three consuming operations read descriptor state exclusively from those
two fields: two identities agreeing on name, reference, `_typeMethods`,
and `_typeProps` — but with arbitrarily different other fields — are
indistinguishable to `becomeType`, `isType`, and `renounceType`. -/
theorem C9_descriptor_state_locality (c : Ctor) (named : List Value)
    (props : List String) (renamed : Obj) (c1 c2 : Ctor) (b o : JSObj) (fb : Value)
    (hname : c1.name = c2.name) (href : c1.ref = c2.ref)
    (hm : c1.typeMethods = c2.typeMethods) (hp : c1.typeProps = c2.typeProps) :
    ((defineType c named props renamed).1.name = c.name ∧
     (defineType c named props renamed).1.ref = c.ref ∧
     (defineType c named props renamed).1.otherFields = c.otherFields) ∧
    becomeType b c1 = becomeType b c2 ∧
    isType o c1 = isType o c2 ∧
    renounceType o c1 fb = renounceType o c2 fb := by
  refine ⟨?_, ?_, ?_, ?_⟩
  · cases hreg : registerNamed (methodsOf c) named with
    | mk m1 err => cases err <;> simp [defineType, hreg]
  · simp [becomeType, methodsOf, ctorVal, hname, href, hm]
  · simp [isType, methodsOf, ctorVal, hname, href, hm]
  · simp [renounceType, methodsOf, propsOf, hm, hp]

/-- Witness for C9: a registration call preserves the identity's other
fields, and `isType` ignores them. -/
theorem C9_descriptor_state_locality_witness :
    (defineType freshCtor [speakFn] ["name"] []).1.otherFields = freshCtor.otherFields ∧
    isType rexObj { animalCtor with otherFields := [("extra", Value.num 1)] } = isType rexObj animalCtor := by
  have h := C9_descriptor_state_locality freshCtor [speakFn] ["name"] []
    { animalCtor with otherFields := [("extra", Value.num 1)] } animalCtor rexObj rexObj Value.undef
    rfl rfl rfl rfl
  exact ⟨h.1.2.2, h.2.2.1⟩

/-- C10: for a never-registered identity (both descriptor fields absent,
so both `for..in` loops run zero iterations), `renounceType` is not a
no-op: it unconditionally assigns the object's `constructor` field —
`Array` for arrays, `Object` otherwise — and leaves every other field
unchanged. -/
theorem C10_unregistered_renounce (o : JSObj) (c : Ctor)
    (hm : c.typeMethods = none) (hp : c.typeProps = none) :
    renounceType o c Value.undef =
      { o with fields := setProp o.fields "constructor" (baselineCtorVal o) } ∧
    getProp (renounceType o c Value.undef).fields "constructor" = baselineCtorVal o ∧
    (∀ k, k ≠ "constructor" →
      getProp (renounceType o c Value.undef).fields k = getProp o.fields k ∧
      hasProp (renounceType o c Value.undef).fields k = hasProp o.fields k) ∧
    (renounceType o c Value.undef).isArr = o.isArr := by
  have hfields : (renounceType o c Value.undef).fields =
      setProp o.fields "constructor" (baselineCtorVal o) := by
    rw [renounceType_fields]
    simp [methodsOf, propsOf, hm, hp, delFields_nil, truthy]
  refine ⟨?_, ?_, ?_, rfl⟩
  · cases ho : renounceType o c Value.undef with
    | mk f a =>
      have ha : a = o.isArr := by rw [← renounceType_isArr o c Value.undef, ho]
      have hf : f = setProp o.fields "constructor" (baselineCtorVal o) := by
        rw [← hfields, ho]
      rw [ha, hf]
  · rw [hfields, getProp_setProp_self]
  · intro k hk
    rw [hfields]
    exact ⟨getProp_setProp_ne _ _ _ _ (Ne.symm hk), hasProp_setProp_ne _ _ _ _ (Ne.symm hk)⟩

/-- Witness for C10: renouncing a never-registered identity on
`{name: "Rex"}` assigns the `Object` baseline and keeps `name`. -/
theorem C10_unregistered_renounce_witness :
    renounceType rexObj neverCtor Value.undef =
      { rexObj with fields := setProp rexObj.fields "constructor" (baselineCtorVal rexObj) } ∧
    getProp (renounceType rexObj neverCtor Value.undef).fields "name" = Value.str "Rex" := by
  have h := C10_unregistered_renounce rexObj neverCtor rfl rfl
  refine ⟨h.1, ?_⟩
  rw [(h.2.2.1 "name" (by decide)).1]
  decide

end Plastic
